import Mathlib

/-!
Shallow embedding of the stream-sequencing and metric-derivation pipeline
of `src/src/App.jsx` (havflow): the sequential update processor
(`processNextMessage`, `queueMessage`), the imbalance calculation, the
rolling history buffer, the dual-shape level decoding, and the unmount
cleanup.  Numbers are modelled as rationals (`ℚ`); the external WASM book
engine is an abstract parameter `eng : Msg → Except Unit (Option EngineResult)`
(`Except.error` models `apply_and_get` throwing, `Option` models a
null/undefined result).  React state setters become fields of an explicit
record of published state.
-/

namespace Havflow

/-- Raw delta payloads are opaque to the processor; we index them by `ℕ`. -/
abbrev Msg := Nat

/-- JavaScript `x || d` restricted to numbers/undefined: `undefined` and `0`
are falsy, any other number is truthy. -/
def jsOrQ (x : Option ℚ) (d : ℚ) : ℚ :=
  match x with
  | none => d
  | some q => if q = 0 then d else q

/-- A price level as delivered by the SDK: either an object with named
fields (`{price, qty}`, either possibly absent) or a positional pair
(`[price, qty]`).  `App.jsx` reads levels with `b.qty || b[1] || 0`. -/
inductive Level where
  | obj (price : ℚ) (qty : Option ℚ)
  | pair (price : ℚ) (qty : Option ℚ)
  deriving DecidableEq, Repr

/-- `b.qty`: defined only on the object shape (arrays have no `qty` field). -/
def qtyNamed : Level → Option ℚ
  | .obj _ q => q
  | .pair _ _ => none

/-- `b[1]`: defined only on the positional shape (objects have no index 1). -/
def qtyPositional : Level → Option ℚ
  | .obj _ _ => none
  | .pair _ q => q

/-- The per-level quantity read in `App.jsx` line 47/48: `b.qty || b[1] || 0`. -/
def levelQty (b : Level) : ℚ :=
  jsOrQ (qtyNamed b) (jsOrQ (qtyPositional b) 0)

/-- `levels.reduce((sum, b) => sum + (b.qty || b[1] || 0), 0)` (lines 47-48). -/
def sumVolume (ls : List Level) : ℚ :=
  ls.foldl (fun s b => s + levelQty b) 0

/-- Line 62: `[...prev.slice(-59), imb]` — keep the last 59 samples and
append the new one.  JS `slice(-59)` is the suffix of length `min 59 len`. -/
def appendHistory (prev : List ℚ) (imb : ℚ) : List ℚ :=
  prev.drop (prev.length - 59) ++ [imb]

/-- The `stats` record published by `setStats` (line 50). -/
structure Stats where
  bidVolume : ℚ
  askVolume : ℚ
  spread : ℚ
  midPrice : ℚ
  deriving DecidableEq, Repr

/-- The result object returned by `book.apply_and_get`.  Fields the code
reads with `||`-defaults are `Option`-valued (absent = `undefined`). -/
structure EngineResult where
  msg_type : String
  bids : Option (List Level)
  asks : Option (List Level)
  spread : Option ℚ
  mid_price : Option ℚ
  deriving DecidableEq, Repr

/-- The React state published to the rendering consumer, plus `published`,
an observation counter of successful publish events (the `setBids`/`setAsks`/
`setStats` calls on the actionable path, lines 43-55). -/
structure AppState where
  imbalance : ℚ
  imbalanceHistory : List ℚ
  bids : List Level
  asks : List Level
  stats : Stats
  published : Nat
  deriving DecidableEq, Repr

/-- Initial React state (lines 10-14). -/
def app0 : AppState :=
  { imbalance := 0, imbalanceHistory := [], bids := [], asks := [],
    stats := { bidVolume := 0, askVolume := 0, spread := 0, midPrice := 0 },
    published := 0 }

/-- Lines 40-63: the actionable branch of `processNextMessage`.  Publishes
bids/asks/stats, then guards the imbalance sample on `total > 0`. -/
def publishUpdate (st : AppState) (r : EngineResult) : AppState :=
  let topBids := r.bids.getD []
  let topAsks := r.asks.getD []
  let bidVolume := sumVolume topBids
  let askVolume := sumVolume topAsks
  let st1 : AppState :=
    { st with bids := topBids, asks := topAsks,
              stats := { bidVolume := bidVolume, askVolume := askVolume,
                         spread := jsOrQ r.spread 0,
                         midPrice := jsOrQ r.mid_price 0 },
              published := st.published + 1 }
  let total := bidVolume + askVolume
  if 0 < total then
    let imb := (bidVolume - askVolume) / total
    { st1 with imbalance := imb,
               imbalanceHistory := appendHistory st1.imbalanceHistory imb }
  else st1

/-- Line 39: `if (result && (result.msg_type === 'update' || result.msg_type
=== 'snapshot'))` — a null result or a non-actionable message type leaves the
published state untouched. -/
def handleResult (st : AppState) (res : Option EngineResult) : AppState :=
  match res with
  | none => st
  | some r =>
    if r.msg_type = "update" ∨ r.msg_type = "snapshot" then publishUpdate st r
    else st

/-- The processor's state: `queue` is `messageQueueRef.current`, `processing`
is `processingRef.current`, `book` is `bookRef.current` (`none` = null),
`applied` is an observation trace of the messages passed to
`book.apply_and_get`, `app` is the published React state. -/
structure ProcState where
  queue : List Msg
  processing : Bool
  book : Option Unit
  applied : List Msg
  app : AppState
  deriving DecidableEq, Repr

/-- Lines 22-73: one synchronous invocation of `processNextMessage` with
engine behaviour `eng`.  No-op when busy or the queue is empty; otherwise
sets busy, shifts the head, applies it (unless the book is null, in which
case the message is dropped without an engine call), handles the result or
swallows the thrown error, and clears busy.  The trailing
`setTimeout(processNextMessage, 0)` is modelled by `drain` below. -/
def processNextMessage (eng : Msg → Except Unit (Option EngineResult))
    (st : ProcState) : ProcState :=
  if st.processing then st
  else
    match st.queue, st.book with
    | [], _ => st
    | _ :: rest, none =>
      { st with queue := rest, processing := false }
    | data :: rest, some _ =>
      match eng data with
      | Except.ok res =>
        { st with queue := rest, processing := false,
                  applied := st.applied ++ [data],
                  app := handleResult st.app res }
      | Except.error _ =>
        { st with queue := rest, processing := false,
                  applied := st.applied ++ [data] }

/-- The chain of `setTimeout(processNextMessage, 0)` callbacks: invoke
`processNextMessage` until the queue is empty or the processor is stuck
busy, with fuel bounding the number of invocations. -/
def drainFuel (eng : Msg → Except Unit (Option EngineResult)) :
    Nat → ProcState → ProcState
  | 0, st => st
  | Nat.succ n, st =>
    if st.processing then st
    else
      match st.queue with
      | [] => st
      | _ :: _ => drainFuel eng n (processNextMessage eng st)

/-- Run the scheduled callbacks to completion: one invocation consumes one
queued message, so `st.queue.length` invocations suffice. -/
def drain (eng : Msg → Except Unit (Option EngineResult))
    (st : ProcState) : ProcState :=
  drainFuel eng st.queue.length st

/-- Lines 75-82: `queueMessage` pushes the raw delta, truncates to the most
recent 100 entries when the length exceeds 200, then calls
`processNextMessage`. -/
def queueMessage (eng : Msg → Except Unit (Option EngineResult))
    (m : Msg) (st : ProcState) : ProcState :=
  let q1 := st.queue ++ [m]
  let q2 := if 200 < q1.length then q1.drop (q1.length - 100) else q1
  processNextMessage eng { st with queue := q2 }

/-- Lines 132-136: the unmount cleanup — closes the socket (outside this
model) and frees the book via `bookRef.current?.free()`; the queue, the
history and all other published state are untouched. -/
def cleanup (st : ProcState) : ProcState :=
  { st with book := none }

/-- A concrete actionable engine result: one bid level of quantity 3 at
price 100, one ask level of quantity 1 at price 101. -/
def resOK : EngineResult :=
  { msg_type := "update",
    bids := some [Level.pair 100 (some 3)],
    asks := some [Level.pair 101 (some 1)],
    spread := some 1, mid_price := some (201/2 : ℚ) }

/-- An engine that throws on message 1 and succeeds with `resOK` otherwise. -/
def engFail1 : Msg → Except Unit (Option EngineResult)
  | 1 => Except.error ()
  | _ => Except.ok (some resOK)

/-- An engine that always returns a null result. -/
def engNone : Msg → Except Unit (Option EngineResult) :=
  fun _ => Except.ok none

/-- Idle processor with queue [0, 1, 2] and a live book. -/
def st0 : ProcState :=
  { queue := [0, 1, 2], processing := false, book := some (),
    applied := [], app := app0 }

/-- Processor stuck busy with an empty queue (no consumption can happen). -/
def procBusyEmpty : ProcState :=
  { queue := [], processing := true, book := some (),
    applied := [], app := app0 }

/-- Processor with a dead (released / never initialized) book and one queued delta. -/
def stNoBook : ProcState :=
  { queue := [0], processing := false, book := none, applied := [], app := app0 }

/-- Processor with a dead book and an empty queue. -/
def stNoBookEmpty : ProcState :=
  { queue := [], processing := false, book := none, applied := [], app := app0 }

/-- Idle processor whose single queued delta the engine will reject. -/
def stF : ProcState :=
  { queue := [1], processing := false, book := some (), applied := [], app := app0 }

/-- An engine result that is actionable but carries zero total volume. -/
def resZero : EngineResult :=
  { msg_type := "snapshot", bids := some [], asks := none,
    spread := none, mid_price := some 5 }

/-- Idle processor with non-empty queue and non-empty history, about to be torn down. -/
def stPre : ProcState :=
  { queue := [5], processing := false, book := some (), applied := [],
    app := { app0 with imbalanceHistory := [(1 : ℚ)/2] } }

section Lemmas

variable (eng : Msg → Except Unit (Option EngineResult))

lemma pnm_busy (st : ProcState) (h : st.processing = true) :
    processNextMessage eng st = st := by
  simp [processNextMessage, h]

lemma pnm_nil (p : Bool) (b : Option Unit) (ap : List Msg) (a : AppState) :
    processNextMessage eng ⟨[], p, b, ap, a⟩ = ⟨[], p, b, ap, a⟩ := by
  cases p <;> simp [processNextMessage]

lemma pnm_noBook (d : Msg) (rest ap : List Msg) (a : AppState) :
    processNextMessage eng ⟨d :: rest, false, none, ap, a⟩ =
      ⟨rest, false, none, ap, a⟩ := by
  simp [processNextMessage]

lemma pnm_ok (d : Msg) (rest ap : List Msg) (a : AppState)
    (res : Option EngineResult) (h : eng d = Except.ok res) :
    processNextMessage eng ⟨d :: rest, false, some (), ap, a⟩ =
      ⟨rest, false, some (), ap ++ [d], handleResult a res⟩ := by
  simp [processNextMessage, h]

lemma pnm_err (d : Msg) (rest ap : List Msg) (a : AppState)
    (h : eng d = Except.error ()) :
    processNextMessage eng ⟨d :: rest, false, some (), ap, a⟩ =
      ⟨rest, false, some (), ap ++ [d], a⟩ := by
  simp [processNextMessage, h]

lemma pnm_applied_le (st : ProcState) :
    (processNextMessage eng st).applied.length ≤ st.applied.length + 1 := by
  obtain ⟨q, p, b, ap, a⟩ := st
  cases p
  · cases q with
    | nil => simp [pnm_nil]
    | cons d rest =>
      cases b with
      | none => simp [pnm_noBook]
      | some u =>
        cases u
        cases h : eng d with
        | ok res => simp [pnm_ok eng d rest ap a res h]
        | error e => cases e; simp [pnm_err eng d rest ap a h]
  · rw [pnm_busy eng ⟨q, true, b, ap, a⟩ rfl]
    simp

lemma drainFuel_someBook :
    ∀ (q ap : List Msg) (a : AppState), ∃ a2 : AppState,
      drainFuel eng q.length ⟨q, false, some (), ap, a⟩ =
        ⟨[], false, some (), ap ++ q, a2⟩ := by
  intro q
  induction q with
  | nil => intro ap a; exact ⟨a, by simp [drainFuel]⟩
  | cons d rest ih =>
    intro ap a
    cases h : eng d with
    | ok res =>
      obtain ⟨a2, h2⟩ := ih (ap ++ [d]) (handleResult a res)
      refine ⟨a2, ?_⟩
      rw [List.length_cons, drainFuel]
      simp only [Bool.false_eq_true, if_false]
      rw [pnm_ok eng d rest ap a res h, h2]
      simp
    | error e =>
      cases e
      obtain ⟨a2, h2⟩ := ih (ap ++ [d]) a
      refine ⟨a2, ?_⟩
      rw [List.length_cons, drainFuel]
      simp only [Bool.false_eq_true, if_false]
      rw [pnm_err eng d rest ap a h, h2]
      simp

lemma drainFuel_noBook :
    ∀ (q ap : List Msg) (a : AppState),
      drainFuel eng q.length ⟨q, false, none, ap, a⟩ = ⟨[], false, none, ap, a⟩ := by
  intro q
  induction q with
  | nil => intro ap a; simp [drainFuel]
  | cons d rest ih =>
    intro ap a
    rw [List.length_cons, drainFuel]
    simp only [Bool.false_eq_true, if_false]
    rw [pnm_noBook, ih]

lemma appendHistory_length_le (h : List ℚ) (v : ℚ) :
    (appendHistory h v).length ≤ 60 := by
  simp [appendHistory]
  omega

lemma appendHistory_at_cap (prev : List ℚ) (s : ℚ) (h60 : prev.length = 60) :
    appendHistory prev s = prev.drop 1 ++ [s] := by
  simp [appendHistory, h60]

lemma foldl_appendHistory (l : List ℚ) :
    List.foldl appendHistory [] l = l.drop (l.length - 60) := by
  induction l using List.reverseRecOn with
  | nil => simp
  | append_singleton xs x ih =>
    rw [List.foldl_append, List.foldl_cons, List.foldl_nil, ih]
    rcases le_or_lt xs.length 59 with hle | hlt
    · have h0 : xs.length - 59 = 0 := by omega
      have h1 : xs.length - 60 = 0 := by omega
      have h2 : (xs ++ [x]).length - 60 = 0 := by simp; omega
      simp [appendHistory, h0, h1, h2]
    · have h1 : (xs.drop (xs.length - 60)).length = 60 := by
        rw [List.length_drop]; omega
      rw [appendHistory, h1]
      have h59 : (60 - 59 : ℕ) = 1 := rfl
      rw [h59, List.drop_drop]
      have h60 : xs.length - 60 + 1 = (xs ++ [x]).length - 60 := by simp; omega
      rw [h60, List.drop_append_eq_append_drop]
      have h5 : (xs ++ [x]).length - 60 - xs.length = 0 := by simp
      rw [h5]
      simp

lemma sumVolume_eq_map_sum (ls : List Level) :
    sumVolume ls = (ls.map levelQty).sum := by
  have key : ∀ (ls : List Level) (acc : ℚ),
      ls.foldl (fun s b => s + levelQty b) acc = acc + (ls.map levelQty).sum := by
    intro ls
    induction ls with
    | nil => intro acc; simp
    | cons b bs ih => intro acc; simp [ih, add_assoc]
  simpa [sumVolume] using key ls 0

lemma handleResult_actionable (st : AppState) (r : EngineResult)
    (hact : r.msg_type = "update" ∨ r.msg_type = "snapshot") :
    handleResult st (some r) = publishUpdate st r := by
  simp only [handleResult]
  rw [if_pos hact]

end Lemmas

set_option maxRecDepth 10000

/-- Claim C2: for an actionable engine result with non-negative summed bid
and ask volumes and positive total, the imbalance stored by
`processNextMessage`'s actionable path equals
`(bidVolume - askVolume) / (bidVolume + askVolume)` and lies in `[-1, 1]`. -/
theorem C2_imbalance_formula_and_range (st : AppState) (r : EngineResult)
    (hact : r.msg_type = "update" ∨ r.msg_type = "snapshot")
    (hbv : 0 ≤ sumVolume (r.bids.getD [])) (hav : 0 ≤ sumVolume (r.asks.getD []))
    (hpos : 0 < sumVolume (r.bids.getD []) + sumVolume (r.asks.getD [])) :
    (handleResult st (some r)).imbalance =
      (sumVolume (r.bids.getD []) - sumVolume (r.asks.getD [])) /
        (sumVolume (r.bids.getD []) + sumVolume (r.asks.getD [])) ∧
    -1 ≤ (handleResult st (some r)).imbalance ∧
    (handleResult st (some r)).imbalance ≤ 1 := by
  have himb : (handleResult st (some r)).imbalance =
      (sumVolume (r.bids.getD []) - sumVolume (r.asks.getD [])) /
        (sumVolume (r.bids.getD []) + sumVolume (r.asks.getD [])) := by
    rw [handleResult_actionable st r hact]
    simp only [publishUpdate]
    rw [if_pos hpos]
  refine ⟨himb, ?_, ?_⟩
  · rw [himb, le_div_iff₀ hpos]
    linarith
  · rw [himb, div_le_one hpos]
    linarith

/-- Witness for C2 at `resOK` (bid volume 3, ask volume 1): imbalance 1/2. -/
theorem C2_imbalance_formula_and_range_witness :
    (handleResult app0 (some resOK)).imbalance =
      (sumVolume (resOK.bids.getD []) - sumVolume (resOK.asks.getD [])) /
        (sumVolume (resOK.bids.getD []) + sumVolume (resOK.asks.getD [])) ∧
    -1 ≤ (handleResult app0 (some resOK)).imbalance ∧
    (handleResult app0 (some resOK)).imbalance ≤ 1 :=
  C2_imbalance_formula_and_range app0 resOK (Or.inl rfl)
    (by norm_num [resOK, sumVolume, levelQty, jsOrQ, qtyNamed, qtyPositional])
    (by norm_num [resOK, sumVolume, levelQty, jsOrQ, qtyNamed, qtyPositional])
    (by norm_num [resOK, sumVolume, levelQty, jsOrQ, qtyNamed, qtyPositional])

/-- Claim C3: an actionable message whose summed volumes total zero produces
no imbalance sample: the history buffer and the published imbalance value
are exactly unchanged (the `total > 0` guard skips the division). -/
theorem C3_zero_total_skips_sample (st : AppState) (r : EngineResult)
    (hact : r.msg_type = "update" ∨ r.msg_type = "snapshot")
    (h0 : sumVolume (r.bids.getD []) + sumVolume (r.asks.getD []) = 0) :
    (handleResult st (some r)).imbalanceHistory = st.imbalanceHistory ∧
    (handleResult st (some r)).imbalance = st.imbalance := by
  have hneg : ¬ (0 < sumVolume (r.bids.getD []) + sumVolume (r.asks.getD [])) := by
    rw [h0]
    exact lt_irrefl 0
  rw [handleResult_actionable st r hact]
  simp only [publishUpdate]
  rw [if_neg hneg]
  exact ⟨rfl, rfl⟩

/-- Witness for C3 at `resZero` (both sides empty, total volume 0). -/
theorem C3_zero_total_skips_sample_witness :
    (handleResult app0 (some resZero)).imbalanceHistory = app0.imbalanceHistory ∧
    (handleResult app0 (some resZero)).imbalance = app0.imbalance :=
  C3_zero_total_skips_sample app0 resZero (Or.inr rfl)
    (by norm_num [resZero, sumVolume])

/-- Claim C4: the history buffer never exceeds 60 samples, an append at
capacity 60 evicts exactly the oldest sample, and appending 61 samples to an
empty buffer leaves exactly the last 60 in arrival order. -/
theorem C4_history_capacity (prev : List ℚ) (s : ℚ) (samples : List ℚ)
    (hcap : prev.length = 60) (hlen : samples.length = 61) :
    (∀ (h : List ℚ) (v : ℚ), (appendHistory h v).length ≤ 60) ∧
    appendHistory prev s = prev.drop 1 ++ [s] ∧
    List.foldl appendHistory [] samples = samples.drop 1 ∧
    (List.foldl appendHistory [] samples).length = 60 := by
  refine ⟨appendHistory_length_le, appendHistory_at_cap prev s hcap, ?_, ?_⟩
  · rw [foldl_appendHistory, hlen]
  · rw [foldl_appendHistory, List.length_drop, hlen]

/-- A buffer already at capacity 60, and a run of 61 distinct samples. -/
def prev60 : List ℚ := List.replicate 60 0

/-- 61 distinct samples 0, 1, ..., 60. -/
def samples61 : List ℚ := (List.range 61).map Nat.cast

/-- Witness for C4 on a concrete 60-sample buffer and 61-sample run. -/
theorem C4_history_capacity_witness :
    (∀ (h : List ℚ) (v : ℚ), (appendHistory h v).length ≤ 60) ∧
    appendHistory prev60 1 = prev60.drop 1 ++ [1] ∧
    List.foldl appendHistory [] samples61 = samples61.drop 1 ∧
    (List.foldl appendHistory [] samples61).length = 60 :=
  C4_history_capacity prev60 1 samples61 (by simp [prev60])
    (by rw [samples61, List.length_map, List.length_range])

/-- Claim C9: volume extraction tolerates both level shapes — object with
named fields and positional pair — contributing exactly the level's quantity
(0 when absent), and a side's volume is the sum of the per-level quantities. -/
theorem C9_dual_shape_volume (p q : ℚ) (ls : List Level) :
    levelQty (Level.obj p (some q)) = q ∧
    levelQty (Level.pair p (some q)) = q ∧
    levelQty (Level.obj p none) = 0 ∧
    levelQty (Level.pair p none) = 0 ∧
    sumVolume ls = (ls.map levelQty).sum := by
  refine ⟨?_, ?_, ?_, ?_, sumVolume_eq_map_sum ls⟩
  · by_cases hq : q = 0 <;> simp [levelQty, jsOrQ, qtyNamed, qtyPositional, hq]
  · by_cases hq : q = 0 <;> simp [levelQty, jsOrQ, qtyNamed, qtyPositional, hq]
  · simp [levelQty, jsOrQ, qtyNamed, qtyPositional]
  · simp [levelQty, jsOrQ, qtyNamed, qtyPositional]

/-- Claim C10: an actionable message with zero total volume still updates
bids, asks and the stats record (volumes, spread, mid-price) from the
snapshot, while the published imbalance and the history stay unchanged. -/
theorem C10_zero_total_frame (st : AppState) (r : EngineResult)
    (hact : r.msg_type = "update" ∨ r.msg_type = "snapshot")
    (h0 : sumVolume (r.bids.getD []) + sumVolume (r.asks.getD []) = 0) :
    (handleResult st (some r)).bids = r.bids.getD [] ∧
    (handleResult st (some r)).asks = r.asks.getD [] ∧
    (handleResult st (some r)).stats =
      { bidVolume := sumVolume (r.bids.getD []),
        askVolume := sumVolume (r.asks.getD []),
        spread := jsOrQ r.spread 0, midPrice := jsOrQ r.mid_price 0 } ∧
    (handleResult st (some r)).imbalance = st.imbalance ∧
    (handleResult st (some r)).imbalanceHistory = st.imbalanceHistory := by
  have hneg : ¬ (0 < sumVolume (r.bids.getD []) + sumVolume (r.asks.getD [])) := by
    rw [h0]
    exact lt_irrefl 0
  rw [handleResult_actionable st r hact]
  simp only [publishUpdate]
  rw [if_neg hneg]
  exact ⟨rfl, rfl, rfl, rfl, rfl⟩

/-- Claim C1: `processNextMessage` is a no-op when busy or when the queue is
empty; each invocation passes at most one message to the engine; and running
the scheduled invocations to completion applies the queued deltas to the
engine in exact FIFO arrival order (the trace extends by the queue, in
order), emptying the queue.  Each application's result is fully handled
within its own invocation before the next invocation starts. -/
theorem C1_serialized_fifo (eng : Msg → Except Unit (Option EngineResult))
    (st : ProcState) (hp : st.processing = false) (hb : st.book = some ()) :
    processNextMessage eng { st with processing := true } =
      { st with processing := true } ∧
    processNextMessage eng { st with queue := [] } = { st with queue := [] } ∧
    (processNextMessage eng st).applied.length ≤ st.applied.length + 1 ∧
    (drain eng st).applied = st.applied ++ st.queue ∧
    (drain eng st).queue = [] := by
  obtain ⟨q, p, b, ap, a⟩ := st
  replace hp : p = false := hp
  replace hb : b = some () := hb
  subst hp
  subst hb
  refine ⟨pnm_busy eng _ rfl, pnm_nil eng false (some ()) ap a,
    pnm_applied_le eng _, ?_, ?_⟩
  · obtain ⟨a2, h2⟩ := drainFuel_someBook eng q ap a
    show (drainFuel eng q.length ⟨q, false, some (), ap, a⟩).applied = ap ++ q
    rw [h2]
  · obtain ⟨a2, h2⟩ := drainFuel_someBook eng q ap a
    show (drainFuel eng q.length ⟨q, false, some (), ap, a⟩).queue = []
    rw [h2]

/-- Witness for C1 on the idle three-delta processor `st0`. -/
theorem C1_serialized_fifo_witness :
    processNextMessage engFail1 { st0 with processing := true } =
      { st0 with processing := true } ∧
    processNextMessage engFail1 { st0 with queue := [] } =
      { st0 with queue := [] } ∧
    (processNextMessage engFail1 st0).applied.length ≤ st0.applied.length + 1 ∧
    (drain engFail1 st0).applied = st0.applied ++ st0.queue ∧
    (drain engFail1 st0).queue = [] :=
  C1_serialized_fifo engFail1 st0 rfl rfl

/-- Claim C5: with the processor busy (no consumption), `queueMessage`
appends at the tail; the result is always a suffix of the pushed queue; no
truncation happens at length ≤ 200; when the pushed length exceeds 200 the
queue is cut to exactly its most recent 100 entries in order; and enqueueing
201 deltas from empty leaves exactly the last 100, in order. -/
theorem C5_enqueue_overflow (eng : Msg → Except Unit (Option EngineResult))
    (st : ProcState) (m : Msg) (hbusy : st.processing = true) :
    List.IsSuffix (queueMessage eng m st).queue (st.queue ++ [m]) ∧
    ((st.queue ++ [m]).length ≤ 200 →
      (queueMessage eng m st).queue = st.queue ++ [m]) ∧
    (200 < (st.queue ++ [m]).length →
      (queueMessage eng m st).queue.length = 100 ∧
      (queueMessage eng m st).queue =
        (st.queue ++ [m]).drop ((st.queue ++ [m]).length - 100)) ∧
    (List.foldl (fun s d => queueMessage engNone d s) procBusyEmpty
        (List.range 201)).queue = List.drop 101 (List.range 201) := by
  have hq : (queueMessage eng m st).queue =
      if 200 < (st.queue ++ [m]).length then
        (st.queue ++ [m]).drop ((st.queue ++ [m]).length - 100)
      else st.queue ++ [m] := by
    simp only [queueMessage]
    rw [pnm_busy eng
      { st with queue := if 200 < (st.queue ++ [m]).length then
          (st.queue ++ [m]).drop ((st.queue ++ [m]).length - 100)
        else st.queue ++ [m] } hbusy]
  refine ⟨?_, ?_, ?_, ?_⟩
  · rw [hq]
    split
    · exact List.drop_suffix _ _
    · exact List.suffix_refl _
  · intro hle
    rw [hq, if_neg (by omega)]
  · intro hgt
    rw [hq, if_pos hgt]
    refine ⟨?_, rfl⟩
    rw [List.length_drop]
    omega
  · decide

/-- Witness for C5 on the busy empty processor. -/
theorem C5_enqueue_overflow_witness :
    List.IsSuffix (queueMessage engNone 0 procBusyEmpty).queue
      (procBusyEmpty.queue ++ [0]) ∧
    ((procBusyEmpty.queue ++ [0]).length ≤ 200 →
      (queueMessage engNone 0 procBusyEmpty).queue = procBusyEmpty.queue ++ [0]) ∧
    (200 < (procBusyEmpty.queue ++ [0]).length →
      (queueMessage engNone 0 procBusyEmpty).queue.length = 100 ∧
      (queueMessage engNone 0 procBusyEmpty).queue =
        (procBusyEmpty.queue ++ [0]).drop ((procBusyEmpty.queue ++ [0]).length - 100)) ∧
    (List.foldl (fun s d => queueMessage engNone d s) procBusyEmpty
        (List.range 201)).queue = List.drop 101 (List.range 201) :=
  C5_enqueue_overflow engNone procBusyEmpty 0 rfl

/-- Claim C6: when the engine throws on a delta, that delta is dropped
silently — queue advanced, busy cleared, published state and history
untouched — and in the concrete run [0, 1, 2] where delta 1 fails between
two successes, all three deltas reach the engine but exactly two publishes
and two history samples result, with the queue fully drained. -/
theorem C6_engine_failure_drops_delta (eng : Msg → Except Unit (Option EngineResult))
    (st : ProcState) (d : Msg) (rest : List Msg)
    (hq : st.queue = d :: rest) (hp : st.processing = false)
    (hb : st.book = some ()) (hfail : eng d = Except.error ()) :
    processNextMessage eng st =
      { st with queue := rest, processing := false,
                applied := st.applied ++ [d] } ∧
    (drain engFail1 st0).app.published = 2 ∧
    (drain engFail1 st0).app.imbalanceHistory = [1/2, 1/2] ∧
    (drain engFail1 st0).applied = [0, 1, 2] ∧
    (drain engFail1 st0).queue = [] := by
  constructor
  · obtain ⟨q, p, b, ap, a⟩ := st
    replace hq : q = d :: rest := hq
    replace hp : p = false := hp
    replace hb : b = some () := hb
    subst hq
    subst hp
    subst hb
    exact pnm_err eng d rest ap a hfail
  · norm_num [drain, st0, drainFuel, processNextMessage, engFail1, handleResult,
      resOK, publishUpdate, sumVolume, levelQty, jsOrQ, qtyNamed, qtyPositional,
      appendHistory, app0]

/-- Witness for C6: the processor `stF` whose single queued delta 1 the
engine `engFail1` rejects. -/
theorem C6_engine_failure_drops_delta_witness :
    processNextMessage engFail1 stF =
      { stF with queue := [], processing := false,
                 applied := stF.applied ++ [1] } ∧
    (drain engFail1 st0).app.published = 2 ∧
    (drain engFail1 st0).app.imbalanceHistory = [1/2, 1/2] ∧
    (drain engFail1 st0).applied = [0, 1, 2] ∧
    (drain engFail1 st0).queue = [] :=
  C6_engine_failure_drops_delta engFail1 stF 1 [] rfl rfl rfl rfl

/-- Claim C7 is refuted: with the book unavailable, the processor dequeues
the pending delta and discards it silently — the queue empties, nothing is
ever applied to an engine, the published state is untouched — and
`queueMessage` still accepts a fresh delta, which is likewise consumed and
discarded with no surfaced terminal state (the state has no error channel
and ends identical to a refusal, with the delta gone). -/
theorem C7_counterexample_silent_discard :
    (processNextMessage engNone stNoBook).queue = [] ∧
    (processNextMessage engNone stNoBook).applied = [] ∧
    (processNextMessage engNone stNoBook).app = app0 ∧
    (queueMessage engNone 7 stNoBookEmpty).queue = [] ∧
    (queueMessage engNone 7 stNoBookEmpty).applied = [] := by
  norm_num [processNextMessage, queueMessage, stNoBook, stNoBookEmpty, app0]

/-- Claim C7 as amended: when the book engine is unavailable, `queueMessage`
still accepts work, and the processor silently drops each dequeued delta —
the head is removed with no engine application, no published-state change
and no surfaced error, and draining discards the entire queue this way. -/
theorem C7_amended_unavailable_engine (eng : Msg → Except Unit (Option EngineResult))
    (st : ProcState) (d : Msg) (rest : List Msg)
    (hq : st.queue = d :: rest) (hp : st.processing = false)
    (hb : st.book = none) :
    processNextMessage eng st = { st with queue := rest, processing := false } ∧
    drain eng st = { st with queue := [], processing := false } := by
  obtain ⟨q, p, b, ap, a⟩ := st
  replace hq : q = d :: rest := hq
  replace hp : p = false := hp
  replace hb : b = none := hb
  subst hq
  subst hp
  subst hb
  refine ⟨pnm_noBook eng d rest ap a, ?_⟩
  show drainFuel eng (d :: rest).length ⟨d :: rest, false, none, ap, a⟩ = _
  rw [drainFuel_noBook eng (d :: rest) ap a]

/-- Witness for the amended C7 on `stNoBook`. -/
theorem C7_amended_unavailable_engine_witness :
    processNextMessage engNone stNoBook =
      { stNoBook with queue := [], processing := false } ∧
    drain engNone stNoBook = { stNoBook with queue := [], processing := false } :=
  C7_amended_unavailable_engine engNone stNoBook 0 [] rfl rfl rfl

/-- Claim C8 is refuted: the repository has no consumer-invoked `reset()`;
its only teardown, the unmount cleanup, leaves a non-empty queue and a
non-empty history buffer in place at the concrete state `stPre`, instead of
emptying them. -/
theorem C8_no_reset_counterexample :
    ¬ ((cleanup stPre).queue = [] ∧ (cleanup stPre).app.imbalanceHistory = []) := by
  intro h
  obtain ⟨h1, h2⟩ := h
  simp [cleanup, stPre] at h1

/-- Claim C8 as amended: the only teardown is the unmount cleanup, which
releases the book and leaves the pending queue, the applied trace, the
history buffer and all published state unchanged; nothing empties the queue
or history, and nothing recreates the book for a fresh FIFO sequence. -/
theorem C8_amended_cleanup_frame (st : ProcState) :
    (cleanup st).book = none ∧ (cleanup st).queue = st.queue ∧
    (cleanup st).applied = st.applied ∧
    (cleanup st).app.imbalanceHistory = st.app.imbalanceHistory ∧
    (cleanup st).app = st.app :=
  ⟨rfl, rfl, rfl, rfl, rfl⟩

/-- Witness for C10 at `resZero`. -/
theorem C10_zero_total_frame_witness :
    (handleResult app0 (some resZero)).bids = resZero.bids.getD [] ∧
    (handleResult app0 (some resZero)).asks = resZero.asks.getD [] ∧
    (handleResult app0 (some resZero)).stats =
      { bidVolume := sumVolume (resZero.bids.getD []),
        askVolume := sumVolume (resZero.asks.getD []),
        spread := jsOrQ resZero.spread 0, midPrice := jsOrQ resZero.mid_price 0 } ∧
    (handleResult app0 (some resZero)).imbalance = app0.imbalance ∧
    (handleResult app0 (some resZero)).imbalanceHistory = app0.imbalanceHistory :=
  C10_zero_total_frame app0 resZero (Or.inr rfl)
    (by norm_num [resZero, sumVolume])

end Havflow
